import Mathlib

/-!
Shallow embedding of the deadqueue crate and a verification of the claims of
its specification.  The embedded code is src/atomic.rs (the transactional
availability counter), src/unlimited.rs, src/limited.rs and src/resizable.rs.

Modelling conventions.  Every Rust method takes a shared reference and
mutates internal atomic state; the embedding threads that state explicitly
and describes the quiesced, sequential semantics (no operation in progress,
as the claims require).  A gate acquire with no permit available would
suspend; such a call is reported as `blocked` and, because the transactional
counter is rolled back on cancellation, carries no net state change.  An
unwrap of an absent value is reported as `panicked`.  Edge notifications
(the watch channels behind notify_empty and notify_full) carry no data, so
they are modelled as boolean event flags returned next to the new state.
-/

namespace Deadqueue

/-! The availability counter of src/atomic.rs.  The Rust struct wraps an
AtomicIsize; the embedding is the plain integer it holds. -/

/-- Embeds `Available::sub`: `fetch_sub(1)` returns the old value and the
code subtracts one more, so the caller receives the post-decrement value
next to the reservation handle.  The first component is the new counter
state, the second the returned `new_len`. -/
def Available.sub (a : Int) : Int × Int := (a - 1, a - 1)

/-- Embeds `Available::add`: `fetch_add(1) + 1`, the post-increment value.
First component the new counter state, second the returned value. -/
def Available.add (a : Int) : Int × Int := (a + 1, a + 1)

/-- Embeds `Available::get`: an atomic load. -/
def Available.get (a : Int) : Int := a

/-- Embeds `TransactionSub::commit`: `mem::forget` of the handle, leaving
the decrement in place. -/
def TransactionSub.commit (a : Int) : Int := a

/-- Embeds `Drop for TransactionSub`: dropping the handle without commit
increments the counter back. -/
def TransactionSub.drop (a : Int) : Int := a + 1

/-! The unlimited queue of src/unlimited.rs. -/

/-- State of `unlimited::Queue`: the SegQueue as a list (head at the front),
the pop gate permit count and the availability counter.  The notifier_empty
channel holds no state that the claims observe; publications on it are
reported as event flags by the operations. -/
structure Unlimited.Queue (α : Type) where
  queue : List α
  semaphore : Nat
  available : Int
deriving DecidableEq

variable {α : Type}

/-- Embeds `unlimited::Queue::new` / `Default`: empty queue, no permits,
counter zero. -/
def Unlimited.Queue.new (α : Type) : Unlimited.Queue α := ⟨[], 0, 0⟩

/-- Embeds `FromIterator for unlimited::Queue`: the items are enqueued, the
pop gate starts with one permit per item and the counter at the length. -/
def Unlimited.Queue.fromIter (l : List α) : Unlimited.Queue α :=
  ⟨l, l.length, (l.length : Int)⟩

/-- Embeds `unlimited::Queue::len`. -/
def Unlimited.Queue.len (q : Unlimited.Queue α) : Nat := q.queue.length

/-- Embeds `unlimited::Queue::is_empty`. -/
def Unlimited.Queue.isEmpty (q : Unlimited.Queue α) : Bool := q.queue.isEmpty

/-- Embeds `unlimited::Queue::push`: enqueue, add one pop permit, increment
the availability counter.  Never suspends, never fails. -/
def Unlimited.Queue.push (q : Unlimited.Queue α) (item : α) : Unlimited.Queue α :=
  ⟨q.queue ++ [item], q.semaphore + 1, (Available.add q.available).1⟩

/-- Outcome of `unlimited::Queue::pop`: suspend on the gate, panic on the
unwrap of an absent item, or an item together with the new state and whether
notify_empty published. -/
inductive Unlimited.PopRes (α : Type) where
  | blocked
  | panicked
  | ok (item : α) (state : Unlimited.Queue α) (notifiedEmpty : Bool)
deriving DecidableEq

/-- Embeds `unlimited::Queue::pop`.  The code calls `Available::sub`, binds
the returned post-decrement value as `previous`, awaits a pop permit,
dequeues with unwrap, commits the reservation, publishes notify_empty when
`previous <= 1`, and forgets the permit. -/
def Unlimited.Queue.pop (q : Unlimited.Queue α) : Unlimited.PopRes α :=
  if q.semaphore = 0 then .blocked
  else
    match q.queue with
    | [] => .panicked
    | item :: rest =>
      let previous := (Available.sub q.available).2
      .ok item ⟨rest, q.semaphore - 1, TransactionSub.commit (Available.sub q.available).1⟩
        (decide (previous ≤ 1))

/-- Outcome of `unlimited::Queue::try_pop`: `none` carries the state after
the reservation handle is dropped (rollback), hence the unchanged queue. -/
inductive Unlimited.TryPopRes (α : Type) where
  | none (state : Unlimited.Queue α)
  | panicked
  | ok (item : α) (state : Unlimited.Queue α) (notifiedEmpty : Bool)
deriving DecidableEq

/-- Embeds `unlimited::Queue::try_pop`: as `pop` but with `try_acquire`; on
failure the `?` operator drops the reservation handle, rolling the counter
back. -/
def Unlimited.Queue.tryPop (q : Unlimited.Queue α) : Unlimited.TryPopRes α :=
  if q.semaphore = 0 then
    .none ⟨q.queue, q.semaphore, TransactionSub.drop (Available.sub q.available).1⟩
  else
    match q.queue with
    | [] => .panicked
    | item :: rest =>
      let previous := (Available.sub q.available).2
      .ok item ⟨rest, q.semaphore - 1, TransactionSub.commit (Available.sub q.available).1⟩
        (decide (previous ≤ 1))

/-! The limited queue of src/limited.rs. -/

/-- State of `limited::Queue`: the ArrayQueue as a list together with its
fixed capacity, the push and pop gates and the availability counter. -/
structure Limited.Queue (α : Type) where
  queue : List α
  queueCap : Nat
  pushSemaphore : Nat
  popSemaphore : Nat
  available : Int
deriving DecidableEq

/-- Embeds `limited::Queue::new`: empty ring of capacity `maxSize`, push
gate with `maxSize` permits, pop gate empty, counter zero. -/
def Limited.Queue.new (α : Type) (maxSize : Nat) : Limited.Queue α :=
  ⟨[], maxSize, maxSize, 0, 0⟩

/-- Embeds `impl From for limited::Queue`.  The code fills a local ring
named `queue` with the items of the iterator, but then builds the struct
with a fresh `ArrayQueue::new(size)`, dropping the filled ring: the stored
FIFO is empty, while the pop gate holds `size` permits and the counter
starts at `size`. -/
def Limited.Queue.fromIter (l : List α) : Limited.Queue α :=
  ⟨[], l.length, 0, l.length, (l.length : Int)⟩

/-- Embeds `limited::Queue::len`. -/
def Limited.Queue.len (q : Limited.Queue α) : Nat := q.queue.length

/-- Embeds `limited::Queue::capacity`. -/
def Limited.Queue.capacity (q : Limited.Queue α) : Nat := q.queueCap

/-- Outcome of `limited::Queue::pop`. -/
inductive Limited.PopRes (α : Type) where
  | blocked
  | panicked
  | ok (item : α) (state : Limited.Queue α) (notifiedEmpty : Bool)
deriving DecidableEq

/-- Embeds `limited::Queue::pop`: `Available::sub` binding the returned
post-decrement value as `previous`, pop gate acquire, dequeue with unwrap,
commit, publish notify_empty when `previous <= 1`, forget the permit and
release one push permit. -/
def Limited.Queue.pop (q : Limited.Queue α) : Limited.PopRes α :=
  if q.popSemaphore = 0 then .blocked
  else
    match q.queue with
    | [] => .panicked
    | item :: rest =>
      let previous := (Available.sub q.available).2
      .ok item
        ⟨rest, q.queueCap, q.pushSemaphore + 1, q.popSemaphore - 1,
         TransactionSub.commit (Available.sub q.available).1⟩
        (decide (previous ≤ 1))

/-- Outcome of `limited::Queue::try_pop`: `none` carries the rolled-back
state. -/
inductive Limited.TryPopRes (α : Type) where
  | none (state : Limited.Queue α)
  | panicked
  | ok (item : α) (state : Limited.Queue α) (notifiedEmpty : Bool)
deriving DecidableEq

/-- Embeds `limited::Queue::try_pop`. -/
def Limited.Queue.tryPop (q : Limited.Queue α) : Limited.TryPopRes α :=
  if q.popSemaphore = 0 then
    .none ⟨q.queue, q.queueCap, q.pushSemaphore, q.popSemaphore,
           TransactionSub.drop (Available.sub q.available).1⟩
  else
    match q.queue with
    | [] => .panicked
    | item :: rest =>
      let previous := (Available.sub q.available).2
      .ok item
        ⟨rest, q.queueCap, q.pushSemaphore + 1, q.popSemaphore - 1,
         TransactionSub.commit (Available.sub q.available).1⟩
        (decide (previous ≤ 1))

/-- Outcome of `limited::Queue::push`: suspend on the push gate, panic if
the ring rejects the item, or the new state and whether notify_full
published. -/
inductive Limited.PushRes (α : Type) where
  | blocked
  | panicked
  | ok (state : Limited.Queue α) (notifiedFull : Bool)
deriving DecidableEq

/-- Embeds `limited::Queue::push`: push gate acquire, `Available::add`
binding the returned post-increment value as `previous`, ring push with
unwrap, publish notify_full when `previous + 1 >= capacity`, forget the
permit, release one pop permit. -/
def Limited.Queue.push (q : Limited.Queue α) (item : α) : Limited.PushRes α :=
  if q.pushSemaphore = 0 then .blocked
  else if q.queueCap ≤ q.queue.length then .panicked
  else
    let previous := (Available.add q.available).2
    .ok
      ⟨q.queue ++ [item], q.queueCap, q.pushSemaphore - 1, q.popSemaphore + 1,
       (Available.add q.available).1⟩
      (decide (previous + 1 ≥ (q.queueCap : Int)))

/-- Outcome of `limited::Queue::try_push`: `err` returns the rejected item
verbatim together with the untouched state. -/
inductive Limited.TryPushRes (α : Type) where
  | err (item : α) (state : Limited.Queue α)
  | panicked
  | ok (state : Limited.Queue α) (notifiedFull : Bool)
deriving DecidableEq

/-- Embeds `limited::Queue::try_push`: as `push` but with `try_acquire`; on
failure the item is handed back and nothing is modified. -/
def Limited.Queue.tryPush (q : Limited.Queue α) (item : α) : Limited.TryPushRes α :=
  if q.pushSemaphore = 0 then .err item q
  else if q.queueCap ≤ q.queue.length then .panicked
  else
    let previous := (Available.add q.available).2
    .ok
      ⟨q.queue ++ [item], q.queueCap, q.pushSemaphore - 1, q.popSemaphore + 1,
       (Available.add q.available).1⟩
      (decide (previous + 1 ≥ (q.queueCap : Int)))

/-! The resizable queue of src/resizable.rs. -/

/-- State of `resizable::Queue`: an unlimited queue as backing store, the
atomic capacity, the push gate and an availability counter of its own
(distinct from the one inside the backing queue). -/
structure Resizable.Queue (α : Type) where
  queue : Unlimited.Queue α
  capacity : Nat
  pushSemaphore : Nat
  available : Int
deriving DecidableEq

/-- Embeds `resizable::Queue::new`. -/
def Resizable.Queue.new (α : Type) (maxSize : Nat) : Resizable.Queue α :=
  ⟨Unlimited.Queue.new α, maxSize, maxSize, 0⟩

/-- Embeds `resizable::Queue::len`: delegates to the backing queue. -/
def Resizable.Queue.len (q : Resizable.Queue α) : Nat := q.queue.len

/-- Embeds `resizable::Queue::is_full`: `len >= capacity`. -/
def Resizable.Queue.isFull (q : Resizable.Queue α) : Bool :=
  decide (q.capacity ≤ q.len)

/-- Embeds `resizable::Queue::available`: delegates to the backing queue
counter, not to the resizable queue own counter. -/
def Resizable.Queue.availableGet (q : Resizable.Queue α) : Int :=
  Available.get q.queue.available

/-- The notifier channels in scope of a resizable queue: its own
notifier_empty and notifier_full, and the notifier_empty inside the backing
unlimited queue. -/
inductive Resizable.Channel where
  | ownEmpty
  | ownFull
  | backingEmpty
deriving DecidableEq

/-- Embeds `resizable::Queue::subscribe_empty` (also used by `wait_empty`):
the receiver returned is a subscription of the resizable queue own
notifier_empty field. -/
def Resizable.Queue.subscribeEmptyChannel : Resizable.Channel := .ownEmpty

/-- The channel on which `unlimited::Queue::notify_empty` publishes, seen
from the resizable queue wrapping it: the backing queue notifier_empty. -/
def Resizable.backingPublishEmptyChannel : Resizable.Channel := .backingEmpty

/-- Outcome of `resizable::Queue::pop`: the item, the new state, whether the
resizable queue published its own notify_empty, and whether the backing
queue published its notify_empty while being popped. -/
inductive Resizable.PopRes (α : Type) where
  | blocked
  | panicked
  | ok (item : α) (state : Resizable.Queue α)
      (notifiedOwnEmpty : Bool) (notifiedBackingEmpty : Bool)
deriving DecidableEq

/-- Embeds `resizable::Queue::pop`: `Available::sub` on the own counter
binding the returned post-decrement value as `new_len`, pop of the backing
queue, commit, publish the own notify_empty when `new_len <= 0`, release
one push permit. -/
def Resizable.Queue.pop (q : Resizable.Queue α) : Resizable.PopRes α :=
  let newLen := (Available.sub q.available).2
  match q.queue.pop with
  | .blocked => .blocked
  | .panicked => .panicked
  | .ok item backing nb =>
    .ok item
      ⟨backing, q.capacity, q.pushSemaphore + 1,
       TransactionSub.commit (Available.sub q.available).1⟩
      (decide (newLen ≤ 0)) nb

/-- Outcome of `resizable::Queue::try_pop`. -/
inductive Resizable.TryPopRes (α : Type) where
  | none (state : Resizable.Queue α)
  | panicked
  | ok (item : α) (state : Resizable.Queue α)
      (notifiedOwnEmpty : Bool) (notifiedBackingEmpty : Bool)
deriving DecidableEq

/-- Embeds `resizable::Queue::try_pop`: own `Available::sub`, backing
`try_pop`; only on a returned item are the reservation committed, the own
notify_empty possibly published and a push permit released — otherwise the
handle is dropped, rolling the own counter back. -/
def Resizable.Queue.tryPop (q : Resizable.Queue α) : Resizable.TryPopRes α :=
  let newLen := (Available.sub q.available).2
  match q.queue.tryPop with
  | .none backing =>
    .none ⟨backing, q.capacity, q.pushSemaphore,
           TransactionSub.drop (Available.sub q.available).1⟩
  | .panicked => .panicked
  | .ok item backing nb =>
    .ok item
      ⟨backing, q.capacity, q.pushSemaphore + 1,
       TransactionSub.commit (Available.sub q.available).1⟩
      (decide (newLen ≤ 0)) nb

/-- Outcome of `resizable::Queue::push`. -/
inductive Resizable.PushRes (α : Type) where
  | blocked
  | ok (state : Resizable.Queue α) (notifiedFull : Bool)
deriving DecidableEq

/-- Embeds `resizable::Queue::push`: push gate acquire, own `Available::add`
binding the returned post-increment value as `new_len`, backing push,
publish notify_full when `new_len >= capacity`, forget the permit. -/
def Resizable.Queue.push (q : Resizable.Queue α) (item : α) : Resizable.PushRes α :=
  if q.pushSemaphore = 0 then .blocked
  else
    let newLen := (Available.add q.available).2
    .ok
      ⟨q.queue.push item, q.capacity, q.pushSemaphore - 1, (Available.add q.available).1⟩
      (decide (newLen ≥ (q.capacity : Int)))

/-- Outcome of `resizable::Queue::try_push`: `err` hands the item back with
the untouched state. -/
inductive Resizable.TryPushRes (α : Type) where
  | err (item : α) (state : Resizable.Queue α)
  | ok (state : Resizable.Queue α) (notifiedFull : Bool)
deriving DecidableEq

/-- Embeds `resizable::Queue::try_push`. -/
def Resizable.Queue.tryPush (q : Resizable.Queue α) (item : α) : Resizable.TryPushRes α :=
  if q.pushSemaphore = 0 then .err item q
  else
    let newLen := (Available.add q.available).2
    .ok
      ⟨q.queue.push item, q.capacity, q.pushSemaphore - 1, (Available.add q.available).1⟩
      (decide (newLen ≥ (q.capacity : Int)))

/-- Which notifiers a `resize` call published: the resizable queue own
notify_empty (the code never calls it inside resize, recorded here so that
the fact is part of the result), its notify_full, and the backing queue
notify_empty (published by the direct backing pops of the drain). -/
structure Resizable.Events where
  ownEmpty : Bool
  ownFull : Bool
  backingEmpty : Bool
deriving DecidableEq

/-- One iteration of the shrink loop of `resizable::Queue::resize`: a biased
select that first tries to take one push permit and otherwise pops the
backing queue directly, discarding the item and deliberately not releasing
a push permit; either way `capacity` is decremented.  `none` means neither
branch was ready (the iteration would suspend; the unreachable unwrap
failure inside the backing pop is folded into the same case). -/
def Resizable.Queue.shrinkStep (q : Resizable.Queue α) : Option (Resizable.Queue α × Bool) :=
  if q.pushSemaphore ≠ 0 then
    some (⟨q.queue, q.capacity - 1, q.pushSemaphore - 1, q.available⟩, false)
  else
    match q.queue.pop with
    | .ok _ backing nb => some (⟨backing, q.capacity - 1, q.pushSemaphore, q.available⟩, nb)
    | _ => none

/-- The shrink loop run a given number of times; the boolean accumulates
whether any drained backing pop published the backing notify_empty. -/
def Resizable.Queue.shrinkLoop : Nat → Resizable.Queue α → Option (Resizable.Queue α × Bool)
  | 0, q => some (q, false)
  | n + 1, q =>
    match q.shrinkStep with
    | none => none
    | some (q1, nb1) =>
      match Resizable.Queue.shrinkLoop n q1 with
      | none => none
      | some (q2, nb2) => some (q2, nb1 || nb2)

/-- Embeds `resizable::Queue::resize` (the resize mutex held, sequential
semantics).  Greater: add the difference to capacity and release as many
push permits, without suspending.  Less: run the shrink loop
`capacity - target` times, then publish notify_full when `is_full` holds on
the resulting state.  Equal: no operation.  `none` means a shrink iteration
would suspend. -/
def Resizable.Queue.resize (q : Resizable.Queue α) (targetCapacity : Nat) :
    Option (Resizable.Queue α × Resizable.Events) :=
  if q.capacity < targetCapacity then
    some
      (⟨q.queue, q.capacity + (targetCapacity - q.capacity),
        q.pushSemaphore + (targetCapacity - q.capacity), q.available⟩,
       ⟨false, false, false⟩)
  else if targetCapacity < q.capacity then
    match Resizable.Queue.shrinkLoop (q.capacity - targetCapacity) q with
    | none => none
    | some (q1, nb) => some (q1, ⟨false, q1.isFull, nb⟩)
  else some (q, ⟨false, false, false⟩)

/-! Quiesced operation sequences.  A trace runs a list of public operations
sequentially from a freshly constructed queue, counting the operations that
succeed.  An operation that would suspend never completes and, since the
cancellation path of the transactional counter restores all effects, it is
the identity on the quiesced state; failed try operations complete but count
as unsuccessful. -/

/-- Public operations of the limited queue. -/
inductive Limited.Op (α : Type) where
  | push (item : α)
  | tryPush (item : α)
  | pop
  | tryPop

/-- Quiesced trace state for the limited queue: the queue and the number of
operations that succeeded so far. -/
structure Limited.Trace (α : Type) where
  q : Limited.Queue α
  pushes : Nat
  pops : Nat

/-- Runs one limited-queue operation on a trace. -/
def Limited.runOp (tr : Limited.Trace α) : Limited.Op α → Limited.Trace α
  | .push item =>
    match tr.q.push item with
    | .ok s _ => ⟨s, tr.pushes + 1, tr.pops⟩
    | _ => tr
  | .tryPush item =>
    match tr.q.tryPush item with
    | .ok s _ => ⟨s, tr.pushes + 1, tr.pops⟩
    | _ => tr
  | .pop =>
    match tr.q.pop with
    | .ok _ s _ => ⟨s, tr.pushes, tr.pops + 1⟩
    | _ => tr
  | .tryPop =>
    match tr.q.tryPop with
    | .ok _ s _ => ⟨s, tr.pushes, tr.pops + 1⟩
    | _ => tr

/-- Runs a list of operations from `limited::Queue::new c`. -/
def Limited.runOps (c : Nat) (ops : List (Limited.Op α)) : Limited.Trace α :=
  List.foldl Limited.runOp ⟨Limited.Queue.new α c, 0, 0⟩ ops

/-- Public operations of the resizable queue. -/
inductive Resizable.Op (α : Type) where
  | push (item : α)
  | tryPush (item : α)
  | pop
  | tryPop
  | resize (targetCapacity : Nat)

/-- Quiesced trace state for the resizable queue: the queue, the number of
successful pushes and pops, and the number of items drained (dequeued and
discarded) by shrinking resizes. -/
structure Resizable.Trace (α : Type) where
  q : Resizable.Queue α
  pushes : Nat
  pops : Nat
  drained : Nat

/-- Runs one resizable-queue operation on a trace. -/
def Resizable.runOp (tr : Resizable.Trace α) : Resizable.Op α → Resizable.Trace α
  | .push item =>
    match tr.q.push item with
    | .ok s _ => ⟨s, tr.pushes + 1, tr.pops, tr.drained⟩
    | _ => tr
  | .tryPush item =>
    match tr.q.tryPush item with
    | .ok s _ => ⟨s, tr.pushes + 1, tr.pops, tr.drained⟩
    | _ => tr
  | .pop =>
    match tr.q.pop with
    | .ok _ s _ _ => ⟨s, tr.pushes, tr.pops + 1, tr.drained⟩
    | _ => tr
  | .tryPop =>
    match tr.q.tryPop with
    | .ok _ s _ _ => ⟨s, tr.pushes, tr.pops + 1, tr.drained⟩
    | _ => tr
  | .resize t =>
    match tr.q.resize t with
    | some (s, _) => ⟨s, tr.pushes, tr.pops, tr.drained + (tr.q.len - s.len)⟩
    | none => tr

/-- Runs a list of operations from `resizable::Queue::new c`. -/
def Resizable.runOps (c : Nat) (ops : List (Resizable.Op α)) : Resizable.Trace α :=
  List.foldl Resizable.runOp ⟨Resizable.Queue.new α c, 0, 0, 0⟩ ops

/-! Quiesced well-formedness: the steady-state invariants of the spec data
model, holding between completed operations. -/

/-- Quiesced state of an unlimited queue: the pop gate holds one permit per
stored item and the counter equals the length. -/
def Unlimited.Queue.Wf (q : Unlimited.Queue α) : Prop :=
  q.semaphore = q.len ∧ q.available = (q.len : Int)

/-- Quiesced state of a limited queue: pop permits equal the length, push
permits plus length equal the capacity, the counter equals the length. -/
def Limited.Queue.Wf (q : Limited.Queue α) : Prop :=
  q.popSemaphore = q.len ∧ q.pushSemaphore + q.len = q.queueCap ∧
  q.available = (q.len : Int)

/-- Quiesced state of a resizable queue: well-formed backing queue and push
permits plus length equal the capacity. -/
def Resizable.Queue.Wf (q : Resizable.Queue α) : Prop :=
  q.queue.Wf ∧ q.pushSemaphore + q.len = q.capacity

/-!  Theorems settling the claims. -/

/-- C1.  The claim: every variant built from a finite iterable of n items
has len n, n successful try_pops and then a failing one.  The limited From
implementation drops the filled ring and stores a fresh empty
`ArrayQueue::new(size)`: built from one item, the length is 0, and the
first try_pop — holding one of the `size` pop permits — unwraps an absent
item and panics. -/
theorem C1_limited_from_discards_items :
    (Limited.Queue.fromIter [(10 : Nat)]).len = 0 ∧
    (Limited.Queue.fromIter [(10 : Nat)]).tryPop = Limited.TryPopRes.panicked := by
  exact ⟨rfl, rfl⟩

/-- C2.  The claim: empty-notification is published exactly when the
post-decrement availability is at most 0, never when items remain.  The
unlimited and limited queues publish when the post-decrement value (bound
as `previous`) is at most 1: popping one of two stored items leaves an item
behind and a positive counter, yet publishes notify_empty. -/
theorem C2_notify_empty_fires_with_item_remaining :
    (Unlimited.Queue.fromIter [(1 : Nat), 2]).tryPop =
      Unlimited.TryPopRes.ok 1 ⟨[2], 1, 1⟩ true ∧
    (⟨[(1 : Nat), 2], 2, 0, 2, 2⟩ : Limited.Queue Nat).pop =
      Limited.PopRes.ok 1 ⟨[2], 2, 1, 1, 1⟩ true := by
  exact ⟨rfl, rfl⟩

/-- C3.  The claim: full-notification is published exactly when the push
made the availability counter reach the capacity.  The limited queue
publishes when the post-increment value (bound as `previous`) satisfies
`previous + 1 >= capacity`: pushing one item into an empty queue of
capacity 2 leaves the counter at 1, below capacity, yet publishes
notify_full. -/
theorem C3_notify_full_fires_below_capacity :
    (Limited.Queue.new Nat 2).push 5 =
      Limited.PushRes.ok ⟨[5], 2, 1, 1, 1⟩ true := by
  exact rfl

/-- C4.  The claim: the resizable queue delegates empty-notification to the
backing queue, so the channel awaited by wait_empty and returned by
subscribe_empty is the one the backing queue publishes on, and a drain
inside resize wakes such waiters.  In the code subscribe_empty returns the
resizable queue own notifier_empty, a channel distinct from the backing
queue notifier_empty, and a resize that drains the last stored item
publishes only on the backing channel (events ⟨false, true, true⟩: no own
empty publication, one full publication, one backing empty publication),
so the subscribed waiter is not woken. -/
theorem C4_empty_notification_not_delegated :
    Resizable.Queue.subscribeEmptyChannel ≠ Resizable.backingPublishEmptyChannel ∧
    (⟨⟨[(5 : Nat)], 1, 1⟩, 1, 0, 1⟩ : Resizable.Queue Nat).resize 0 =
      some (⟨⟨[], 0, 0⟩, 0, 0, 1⟩, ⟨false, true, true⟩) := by
  exact ⟨by decide, rfl⟩

/-- C5.  Shrink scenario of the spec on the resizable queue: construct with
capacity 2, try_push 0 succeeds, resize to 1 leaves capacity 1 and length 1
and a try_push of 42 is rejected with 42, resize to 0 drains the surplus
item leaving capacity 0 and length 0 and a try_push of 42 is again
rejected; and growing via resize adds `target - capacity` to the capacity
and releases the same number of push permits without suspending (the
result is always `some`, no shrink loop is entered). -/
theorem C5_resize_scenario_and_grow :
    ((Resizable.Queue.new Nat 2).tryPush 0 =
        Resizable.TryPushRes.ok ⟨⟨[0], 1, 1⟩, 2, 1, 1⟩ false ∧
      (⟨⟨[(0 : Nat)], 1, 1⟩, 2, 1, 1⟩ : Resizable.Queue Nat).resize 1 =
        some (⟨⟨[0], 1, 1⟩, 1, 0, 1⟩, ⟨false, true, false⟩) ∧
      (⟨⟨[(0 : Nat)], 1, 1⟩, 1, 0, 1⟩ : Resizable.Queue Nat).capacity = 1 ∧
      (⟨⟨[(0 : Nat)], 1, 1⟩, 1, 0, 1⟩ : Resizable.Queue Nat).len = 1 ∧
      (⟨⟨[(0 : Nat)], 1, 1⟩, 1, 0, 1⟩ : Resizable.Queue Nat).tryPush 42 =
        Resizable.TryPushRes.err 42 ⟨⟨[0], 1, 1⟩, 1, 0, 1⟩ ∧
      (⟨⟨[(0 : Nat)], 1, 1⟩, 1, 0, 1⟩ : Resizable.Queue Nat).resize 0 =
        some (⟨⟨[], 0, 0⟩, 0, 0, 1⟩, ⟨false, true, true⟩) ∧
      (⟨⟨[], 0, 0⟩, 0, 0, 1⟩ : Resizable.Queue Nat).capacity = 0 ∧
      (⟨⟨[], 0, 0⟩, 0, 0, 1⟩ : Resizable.Queue Nat).len = 0 ∧
      (⟨⟨[], 0, 0⟩, 0, 0, 1⟩ : Resizable.Queue Nat).tryPush 42 =
        Resizable.TryPushRes.err 42 ⟨⟨[], 0, 0⟩, 0, 0, 1⟩) ∧
    ∀ (q : Resizable.Queue Nat) (t : Nat), q.capacity < t →
      q.resize t =
        some (⟨q.queue, q.capacity + (t - q.capacity),
               q.pushSemaphore + (t - q.capacity), q.available⟩,
              ⟨false, false, false⟩) := by
  refine ⟨⟨rfl, rfl, rfl, rfl, rfl, rfl, rfl, rfl, rfl⟩, ?_⟩
  intro q t h
  simp [Resizable.Queue.resize, h]

/-- Witness for C5: the growing part applied to a queue of capacity 0 and
target 2. -/
theorem C5_resize_grow_witness :
    (Resizable.Queue.new Nat 0).capacity < 2 ∧
    (Resizable.Queue.new Nat 0).resize 2 =
      some (⟨Unlimited.Queue.new Nat, 0 + (2 - 0), 0 + (2 - 0), 0⟩,
            ⟨false, false, false⟩) :=
  ⟨by decide, C5_resize_scenario_and_grow.2 (Resizable.Queue.new Nat 0) 2 (by decide)⟩

/-- C7.  `Available::sub` hands back the post-decrement value; dropping the
reservation handle without commit restores the counter to its value before
the sub, while committing leaves it permanently decremented by one. -/
theorem C7_transactional_decrement (a : Int) :
    (Available.sub a).2 = a - 1 ∧
    TransactionSub.drop (Available.sub a).1 = a ∧
    TransactionSub.commit (Available.sub a).1 = a - 1 := by
  refine ⟨rfl, ?_, rfl⟩
  simp [Available.sub, TransactionSub.drop]

/-- A quiesced empty unlimited queue has no pop permit, so try_pop hands
the rolled-back — hence unchanged — state back. -/
lemma Unlimited.tryPop_empty_unlimited (q : Unlimited.Queue α) (h : q.semaphore = 0) :
    q.tryPop = Unlimited.TryPopRes.none q := by
  rcases q with ⟨Q, s, a⟩
  simp only at h
  subst h
  simp [Unlimited.Queue.tryPop, Available.sub, TransactionSub.drop]

/-- The same for the limited queue. -/
lemma Limited.tryPop_empty_limited (q : Limited.Queue α) (h : q.popSemaphore = 0) :
    q.tryPop = Limited.TryPopRes.none q := by
  rcases q with ⟨Q, c, ps, qs, a⟩
  simp only at h
  subst h
  simp [Limited.Queue.tryPop, Available.sub, TransactionSub.drop]

/-- The same for the resizable queue: the backing try_pop returns nothing
and the own reservation handle is dropped, restoring the own counter. -/
lemma Resizable.tryPop_empty_resizable (q : Resizable.Queue α) (h : q.queue.semaphore = 0) :
    q.tryPop = Resizable.TryPopRes.none q := by
  rcases q with ⟨⟨Q, s, a⟩, c, ps, av⟩
  simp only at h
  subst h
  simp [Resizable.Queue.tryPop, Unlimited.Queue.tryPop, Available.sub, TransactionSub.drop]

/-- C8.  On every quiesced empty queue, try_pop returns an absent value and
leaves the state — length, stored items, availability counter, permits —
entirely unchanged: the speculative decrement is rolled back when the
reservation handle is dropped without commit. -/
theorem C8_try_pop_empty_is_noop :
    (∀ (α : Type) (q : Unlimited.Queue α), q.Wf → q.len = 0 →
        q.tryPop = Unlimited.TryPopRes.none q) ∧
    (∀ (α : Type) (q : Limited.Queue α), q.Wf → q.len = 0 →
        q.tryPop = Limited.TryPopRes.none q) ∧
    (∀ (α : Type) (q : Resizable.Queue α), q.Wf → q.len = 0 →
        q.tryPop = Resizable.TryPopRes.none q) := by
  refine ⟨?_, ?_, ?_⟩
  · intro α q hwf hlen
    exact Unlimited.tryPop_empty_unlimited q (by rw [hwf.1, hlen])
  · intro α q hwf hlen
    exact Limited.tryPop_empty_limited q (by rw [hwf.1, hlen])
  · intro α q hwf hlen
    exact Resizable.tryPop_empty_resizable q (by rw [hwf.1.1]; exact hlen)

/-- Witness for C8: freshly constructed queues of each variant. -/
theorem C8_try_pop_empty_witness :
    (Unlimited.Queue.new Nat).tryPop =
      Unlimited.TryPopRes.none (Unlimited.Queue.new Nat) ∧
    (Limited.Queue.new Nat 3).tryPop =
      Limited.TryPopRes.none (Limited.Queue.new Nat 3) ∧
    (Resizable.Queue.new Nat 3).tryPop =
      Resizable.TryPopRes.none (Resizable.Queue.new Nat 3) :=
  ⟨C8_try_pop_empty_is_noop.1 Nat (Unlimited.Queue.new Nat) ⟨by decide, by decide⟩ (by decide),
   C8_try_pop_empty_is_noop.2.1 Nat (Limited.Queue.new Nat 3)
     ⟨by decide, by decide, by decide⟩ (by decide),
   C8_try_pop_empty_is_noop.2.2 Nat (Resizable.Queue.new Nat 3)
     ⟨⟨by decide, by decide⟩, by decide⟩ (by decide)⟩

/-- C9.  On a full bounded queue — no push permit immediately available —
try_push returns the rejected item verbatim and hands back the untouched
state, so length, availability, capacity and the permit count are
unchanged. -/
theorem C9_try_push_full_returns_item :
    (∀ (α : Type) (q : Limited.Queue α) (item : α), q.pushSemaphore = 0 →
        q.tryPush item = Limited.TryPushRes.err item q) ∧
    (∀ (α : Type) (q : Resizable.Queue α) (item : α), q.pushSemaphore = 0 →
        q.tryPush item = Resizable.TryPushRes.err item q) := by
  constructor
  · intro α q item h
    simp [Limited.Queue.tryPush, h]
  · intro α q item h
    simp [Resizable.Queue.tryPush, h]

/-- Witness for C9: full limited and resizable queues reject an item. -/
theorem C9_try_push_full_witness :
    (⟨[(1 : Nat), 2], 2, 0, 2, 2⟩ : Limited.Queue Nat).tryPush 9 =
      Limited.TryPushRes.err 9 ⟨[1, 2], 2, 0, 2, 2⟩ ∧
    (⟨⟨[(5 : Nat)], 1, 1⟩, 1, 0, 1⟩ : Resizable.Queue Nat).tryPush 9 =
      Resizable.TryPushRes.err 9 ⟨⟨[5], 1, 1⟩, 1, 0, 1⟩ :=
  ⟨C9_try_push_full_returns_item.1 Nat ⟨[1, 2], 2, 0, 2, 2⟩ 9 rfl,
   C9_try_push_full_returns_item.2 Nat ⟨⟨[5], 1, 1⟩, 1, 0, 1⟩ 9 rfl⟩

/-- A completing resizable push leaves the capacity untouched. -/
lemma Resizable.push_capacity (q : Resizable.Queue α) (item : α)
    (s : Resizable.Queue α) (b : Bool) (h : q.push item = .ok s b) :
    s.capacity = q.capacity := by
  unfold Resizable.Queue.push at h
  by_cases hp : q.pushSemaphore = 0
  · rw [if_pos hp] at h
    exact Resizable.PushRes.noConfusion h
  · rw [if_neg hp] at h
    injection h with h1 h2
    rw [← h1]

/-- A successful resizable try_push leaves the capacity untouched. -/
lemma Resizable.tryPush_capacity (q : Resizable.Queue α) (item : α)
    (s : Resizable.Queue α) (b : Bool) (h : q.tryPush item = .ok s b) :
    s.capacity = q.capacity := by
  unfold Resizable.Queue.tryPush at h
  by_cases hp : q.pushSemaphore = 0
  · rw [if_pos hp] at h
    exact Resizable.TryPushRes.noConfusion h
  · rw [if_neg hp] at h
    injection h with h1 h2
    rw [← h1]

/-- A failing resizable try_push hands the original state back. -/
lemma Resizable.tryPush_err_state (q : Resizable.Queue α) (item item1 : α)
    (s : Resizable.Queue α) (h : q.tryPush item = .err item1 s) : s = q := by
  unfold Resizable.Queue.tryPush at h
  by_cases hp : q.pushSemaphore = 0
  · rw [if_pos hp] at h
    injection h with h1 h2
    exact h2.symm
  · rw [if_neg hp] at h
    exact Resizable.TryPushRes.noConfusion h

/-- A completing resizable pop leaves the capacity untouched. -/
lemma Resizable.pop_capacity (q : Resizable.Queue α) (item : α)
    (s : Resizable.Queue α) (ne nb : Bool) (h : q.pop = .ok item s ne nb) :
    s.capacity = q.capacity := by
  unfold Resizable.Queue.pop at h
  cases hb : q.queue.pop with
  | blocked =>
    rw [hb] at h
    exact Resizable.PopRes.noConfusion h
  | panicked =>
    rw [hb] at h
    exact Resizable.PopRes.noConfusion h
  | ok item2 backing nb2 =>
    rw [hb] at h
    injection h with h1 h2 h3 h4
    rw [← h2]

/-- A resizable try_pop, successful or not, leaves the capacity
untouched. -/
lemma Resizable.tryPop_capacity (q : Resizable.Queue α) :
    (∀ (item : α) (s : Resizable.Queue α) (ne nb : Bool),
        q.tryPop = .ok item s ne nb → s.capacity = q.capacity) ∧
    (∀ s : Resizable.Queue α, q.tryPop = .none s → s.capacity = q.capacity) := by
  unfold Resizable.Queue.tryPop
  cases hb : q.queue.tryPop with
  | none backing =>
    constructor
    · intro item s ne nb h
      exact Resizable.TryPopRes.noConfusion h
    · intro s h
      injection h with h1
      rw [← h1]
  | panicked =>
    constructor
    · intro item s ne nb h
      exact Resizable.TryPopRes.noConfusion h
    · intro s h
      exact Resizable.TryPopRes.noConfusion h
  | ok item2 backing nb2 =>
    constructor
    · intro item s ne nb h
      injection h with h1 h2 h3 h4
      rw [← h2]
    · intro s h
      exact Resizable.TryPopRes.noConfusion h

/-- C10.  The operations push, try_push, pop and try_pop of the resizable
queue never change the value returned by capacity, in any of their
outcomes; only resize modifies the capacity (the final conjunct shows a
resize that does). -/
theorem C10_only_resize_changes_capacity :
    (∀ (α : Type) (q s : Resizable.Queue α) (item : α) (b : Bool),
        q.push item = Resizable.PushRes.ok s b → s.capacity = q.capacity) ∧
    (∀ (α : Type) (q s : Resizable.Queue α) (item : α) (b : Bool),
        q.tryPush item = Resizable.TryPushRes.ok s b → s.capacity = q.capacity) ∧
    (∀ (α : Type) (q s : Resizable.Queue α) (item : α),
        q.tryPush item = Resizable.TryPushRes.err item s → s.capacity = q.capacity) ∧
    (∀ (α : Type) (q s : Resizable.Queue α) (item : α) (ne nb : Bool),
        q.pop = Resizable.PopRes.ok item s ne nb → s.capacity = q.capacity) ∧
    (∀ (α : Type) (q s : Resizable.Queue α) (item : α) (ne nb : Bool),
        q.tryPop = Resizable.TryPopRes.ok item s ne nb → s.capacity = q.capacity) ∧
    (∀ (α : Type) (q s : Resizable.Queue α),
        q.tryPop = Resizable.TryPopRes.none s → s.capacity = q.capacity) ∧
    (Resizable.Queue.new Nat 0).resize 1 =
      some (⟨Unlimited.Queue.new Nat, 1, 1, 0⟩, ⟨false, false, false⟩) := by
  refine ⟨?_, ?_, ?_, ?_, ?_, ?_, rfl⟩
  · intro α q s item b h
    exact Resizable.push_capacity q item s b h
  · intro α q s item b h
    exact Resizable.tryPush_capacity q item s b h
  · intro α q s item h
    rw [Resizable.tryPush_err_state q item item s h]
  · intro α q s item ne nb h
    exact Resizable.pop_capacity q item s ne nb h
  · intro α q s item ne nb h
    exact (Resizable.tryPop_capacity q).1 item s ne nb h
  · intro α q s h
    exact (Resizable.tryPop_capacity q).2 s h

/-- Witness for C10: a completing push on a resizable queue of capacity 1
keeps the capacity at 1. -/
theorem C10_capacity_witness :
    (Resizable.Queue.new Nat 1).push 5 =
      Resizable.PushRes.ok ⟨⟨[5], 1, 1⟩, 1, 0, 1⟩ true ∧
    (⟨⟨[(5 : Nat)], 1, 1⟩, 1, 0, 1⟩ : Resizable.Queue Nat).capacity =
      (Resizable.Queue.new Nat 1).capacity :=
  ⟨rfl,
   C10_only_resize_changes_capacity.1 Nat (Resizable.Queue.new Nat 1)
     ⟨⟨[5], 1, 1⟩, 1, 0, 1⟩ 5 true rfl⟩

/-- Invariant of a quiesced limited trace started from `new c`: fixed ring
capacity, pop permits equal the length, slot conservation, counter equal to
the length, and length plus successful pops equals successful pushes. -/
def Limited.Inv (c : Nat) (tr : Limited.Trace α) : Prop :=
  tr.q.queueCap = c ∧
  tr.q.popSemaphore = tr.q.len ∧
  tr.q.pushSemaphore + tr.q.len = c ∧
  tr.q.available = (tr.q.len : Int) ∧
  tr.q.len + tr.pops = tr.pushes

/-- Every completed limited-queue operation preserves the trace
invariant. -/
lemma Limited.Inv_runOp_limited (c : Nat) (tr : Limited.Trace α) (op : Limited.Op α)
    (h : Limited.Inv c tr) : Limited.Inv c (Limited.runOp tr op) := by
  obtain ⟨hc, hpop, hpush, hav, hcount⟩ := h
  rcases tr with ⟨⟨Q, cap, psem, qsem, av⟩, pushes, pops⟩
  simp only [Limited.Queue.len] at hc hpop hpush hav hcount
  cases op with
  | push item =>
    by_cases hp : psem = 0
    · simp only [Limited.runOp, Limited.Queue.push, if_pos hp]
      exact ⟨hc, hpop, hpush, hav, hcount⟩
    · have hlt : ¬ cap ≤ Q.length := by omega
      simp only [Limited.runOp, Limited.Queue.push, if_neg hp, if_neg hlt]
      simp only [Limited.Inv, Limited.Queue.len, Available.add, List.length_append,
        List.length_cons, List.length_nil]
      push_cast
      omega
  | tryPush item =>
    by_cases hp : psem = 0
    · simp only [Limited.runOp, Limited.Queue.tryPush, if_pos hp]
      exact ⟨hc, hpop, hpush, hav, hcount⟩
    · have hlt : ¬ cap ≤ Q.length := by omega
      simp only [Limited.runOp, Limited.Queue.tryPush, if_neg hp, if_neg hlt]
      simp only [Limited.Inv, Limited.Queue.len, Available.add, List.length_append,
        List.length_cons, List.length_nil]
      push_cast
      omega
  | pop =>
    by_cases hp : qsem = 0
    · simp only [Limited.runOp, Limited.Queue.pop, if_pos hp]
      exact ⟨hc, hpop, hpush, hav, hcount⟩
    · cases Q with
      | nil =>
        simp only [List.length_nil] at hpop
        exact absurd hpop hp
      | cons x rest =>
        simp only [Limited.runOp, Limited.Queue.pop, if_neg hp]
        simp only [Limited.Inv, Limited.Queue.len, Available.sub, TransactionSub.commit,
          List.length_cons] at *
        omega
  | tryPop =>
    by_cases hp : qsem = 0
    · simp only [Limited.runOp, Limited.Queue.tryPop, if_pos hp]
      exact ⟨hc, hpop, hpush, hav, hcount⟩
    · cases Q with
      | nil =>
        simp only [List.length_nil] at hpop
        exact absurd hpop hp
      | cons x rest =>
        simp only [Limited.runOp, Limited.Queue.tryPop, if_neg hp]
        simp only [Limited.Inv, Limited.Queue.len, Available.sub, TransactionSub.commit,
          List.length_cons] at *
        omega

/-- The trace invariant holds after any list of limited-queue
operations. -/
lemma Limited.Inv_foldl_limited (c : Nat) (ops : List (Limited.Op α)) :
    ∀ tr : Limited.Trace α, Limited.Inv c tr →
      Limited.Inv c (List.foldl Limited.runOp tr ops) := by
  induction ops with
  | nil =>
    intro tr h
    simpa using h
  | cons op rest ih =>
    intro tr h
    simp only [List.foldl_cons]
    exact ih _ (Limited.Inv_runOp_limited c tr op h)

/-- Invariant of a quiesced resizable trace: the backing gate and counter
track the length, slot conservation against the current capacity, and
length plus pops plus drained items equals pushes. -/
def Resizable.Inv (tr : Resizable.Trace α) : Prop :=
  tr.q.queue.semaphore = tr.q.len ∧
  tr.q.queue.available = (tr.q.len : Int) ∧
  tr.q.pushSemaphore + tr.q.len = tr.q.capacity ∧
  tr.q.len + tr.pops + tr.drained = tr.pushes

/-- The shrink loop of resize, run `k` times from a quiesced state with
`k ≤ capacity`, never suspends; it preserves the backing-queue equations,
removes `k` slots (permits and stored items together), decrements the
capacity by `k` and never increases the length. -/
lemma Resizable.shrinkLoop_spec :
    ∀ (k : Nat) (q : Resizable.Queue α),
      q.queue.semaphore = q.len →
      q.queue.available = (q.len : Int) →
      q.pushSemaphore + q.len = q.capacity →
      k ≤ q.capacity →
      ∃ q1 nb, Resizable.Queue.shrinkLoop k q = some (q1, nb) ∧
        q1.queue.semaphore = q1.len ∧
        q1.queue.available = (q1.len : Int) ∧
        q1.pushSemaphore + q1.len = q.capacity - k ∧
        q1.capacity = q.capacity - k ∧
        q1.len ≤ q.len := by
  intro k
  induction k with
  | zero =>
    intro q h1 h2 h3 h4
    exact ⟨q, false, rfl, h1, h2, by omega, by omega, le_refl _⟩
  | succ n ih =>
    intro q h1 h2 h3 h4
    rcases q with ⟨⟨Q, s, a⟩, cap, psem, av⟩
    simp only [Resizable.Queue.len, Unlimited.Queue.len] at h1 h2 h3 h4
    by_cases hp : psem = 0
    · cases Q with
      | nil =>
        exfalso
        simp only [List.length_nil] at h3
        omega
      | cons x rest =>
        simp only [List.length_cons] at h1 h2 h3
        have hs : ¬ s = 0 := by omega
        have hstep :
            Resizable.Queue.shrinkStep (⟨⟨x :: rest, s, a⟩, cap, psem, av⟩ : Resizable.Queue α) =
              some (⟨⟨rest, s - 1, TransactionSub.commit (Available.sub a).1⟩,
                     cap - 1, psem, av⟩,
                    decide ((Available.sub a).2 ≤ 1)) := by
          simp only [Resizable.Queue.shrinkStep, hp, Unlimited.Queue.pop, if_neg hs]
          simp
        obtain ⟨q2, nb2, hrec, g1, g2, g3, g4, g5⟩ :=
          ih ⟨⟨rest, s - 1, TransactionSub.commit (Available.sub a).1⟩, cap - 1, psem, av⟩
            (show s - 1 = rest.length by omega)
            (show TransactionSub.commit (Available.sub a).1 = (rest.length : Int) by
              simp only [TransactionSub.commit, Available.sub]
              push_cast at h2 ⊢
              omega)
            (show psem + rest.length = cap - 1 by omega)
            (show n ≤ cap - 1 by omega)
        have g3x : q2.pushSemaphore + q2.len = cap - 1 - n := g3
        have g4x : q2.capacity = cap - 1 - n := g4
        have g5x : q2.len ≤ rest.length := g5
        refine ⟨q2, decide ((Available.sub a).2 ≤ 1) || nb2, ?_, g1, g2, ?_, ?_, ?_⟩
        · simp only [Resizable.Queue.shrinkLoop]
          rw [hstep]
          simp only [hrec]
        · show q2.pushSemaphore + q2.len = cap - (n + 1)
          omega
        · show q2.capacity = cap - (n + 1)
          omega
        · show q2.len ≤ (x :: rest).length
          simp only [List.length_cons]
          omega
    · have hstep :
          Resizable.Queue.shrinkStep (⟨⟨Q, s, a⟩, cap, psem, av⟩ : Resizable.Queue α) =
            some (⟨⟨Q, s, a⟩, cap - 1, psem - 1, av⟩, false) := by
        simp only [Resizable.Queue.shrinkStep, if_pos (by simpa using hp)]
      obtain ⟨q2, nb2, hrec, g1, g2, g3, g4, g5⟩ :=
        ih ⟨⟨Q, s, a⟩, cap - 1, psem - 1, av⟩ h1 h2
          (show psem - 1 + Q.length = cap - 1 by omega)
          (show n ≤ cap - 1 by omega)
      have g3x : q2.pushSemaphore + q2.len = cap - 1 - n := g3
      have g4x : q2.capacity = cap - 1 - n := g4
      have g5x : q2.len ≤ Q.length := g5
      refine ⟨q2, false || nb2, ?_, g1, g2, ?_, ?_, g5x⟩
      · simp only [Resizable.Queue.shrinkLoop]
        rw [hstep]
        simp only [hrec]
      · show q2.pushSemaphore + q2.len = cap - (n + 1)
        omega
      · show q2.capacity = cap - (n + 1)
        omega

/-- Every completed resizable-queue operation preserves the trace
invariant; in the resize case the drained items are accounted by the length
drop across the call. -/
lemma Resizable.Inv_runOp_resizable (tr : Resizable.Trace α) (op : Resizable.Op α)
    (h : Resizable.Inv tr) : Resizable.Inv (Resizable.runOp tr op) := by
  obtain ⟨hsem, hav, hslot, hcount⟩ := h
  rcases tr with ⟨⟨⟨Q, s, a⟩, cap, psem, av⟩, pushes, pops, drained⟩
  simp only [Resizable.Queue.len, Unlimited.Queue.len] at hsem hav hslot hcount
  cases op with
  | push item =>
    by_cases hp : psem = 0
    · simp only [Resizable.runOp, Resizable.Queue.push, if_pos hp]
      exact ⟨hsem, hav, hslot, hcount⟩
    · simp only [Resizable.runOp, Resizable.Queue.push, if_neg hp]
      simp only [Resizable.Inv, Resizable.Queue.len, Unlimited.Queue.len,
        Unlimited.Queue.push, Available.add, List.length_append, List.length_cons,
        List.length_nil]
      push_cast
      omega
  | tryPush item =>
    by_cases hp : psem = 0
    · simp only [Resizable.runOp, Resizable.Queue.tryPush, if_pos hp]
      exact ⟨hsem, hav, hslot, hcount⟩
    · simp only [Resizable.runOp, Resizable.Queue.tryPush, if_neg hp]
      simp only [Resizable.Inv, Resizable.Queue.len, Unlimited.Queue.len,
        Unlimited.Queue.push, Available.add, List.length_append, List.length_cons,
        List.length_nil]
      push_cast
      omega
  | pop =>
    by_cases hp : s = 0
    · simp only [Resizable.runOp, Resizable.Queue.pop, Unlimited.Queue.pop, if_pos hp]
      exact ⟨hsem, hav, hslot, hcount⟩
    · cases Q with
      | nil =>
        simp only [List.length_nil] at hsem
        exact absurd hsem hp
      | cons x rest =>
        simp only [List.length_cons] at hsem hav hslot hcount
        simp only [Resizable.runOp, Resizable.Queue.pop, Unlimited.Queue.pop, if_neg hp]
        simp only [Resizable.Inv, Resizable.Queue.len, Unlimited.Queue.len,
          Available.sub, TransactionSub.commit, List.length_cons]
        push_cast at hav ⊢
        omega
  | tryPop =>
    by_cases hp : s = 0
    · simp only [Resizable.runOp, Resizable.Queue.tryPop, Unlimited.Queue.tryPop,
        if_pos hp]
      exact ⟨hsem, hav, hslot, hcount⟩
    · cases Q with
      | nil =>
        simp only [List.length_nil] at hsem
        exact absurd hsem hp
      | cons x rest =>
        simp only [List.length_cons] at hsem hav hslot hcount
        simp only [Resizable.runOp, Resizable.Queue.tryPop, Unlimited.Queue.tryPop,
          if_neg hp]
        simp only [Resizable.Inv, Resizable.Queue.len, Unlimited.Queue.len,
          Available.sub, TransactionSub.commit, List.length_cons]
        push_cast at hav ⊢
        omega
  | resize t =>
    rcases Nat.lt_trichotomy cap t with hlt | heq | hgt
    · have h2 : ¬ (t < cap) := by omega
      simp only [Resizable.runOp, Resizable.Queue.resize, if_pos hlt]
      simp only [Resizable.Inv, Resizable.Queue.len, Unlimited.Queue.len]
      omega
    · have h1 : ¬ (cap < t) := by omega
      have h2 : ¬ (t < cap) := by omega
      simp only [Resizable.runOp, Resizable.Queue.resize, if_neg h1, if_neg h2]
      simp only [Resizable.Inv, Resizable.Queue.len, Unlimited.Queue.len]
      omega
    · have h1 : ¬ (cap < t) := by omega
      obtain ⟨q1, nb, hloop, g1, g2, g3, g4, g5⟩ :=
        Resizable.shrinkLoop_spec (cap - t) ⟨⟨Q, s, a⟩, cap, psem, av⟩
          (show s = Q.length from hsem)
          (show a = (Q.length : Int) from hav)
          (show psem + Q.length = cap from hslot)
          (show cap - t ≤ cap by omega)
      have g1x : q1.queue.semaphore = q1.queue.queue.length := g1
      have g2x : q1.queue.available = (q1.queue.queue.length : Int) := g2
      have g3x : q1.pushSemaphore + q1.queue.queue.length = cap - (cap - t) := g3
      have g4x : q1.capacity = cap - (cap - t) := g4
      have g5x : q1.queue.queue.length ≤ Q.length := g5
      simp only [Resizable.runOp, Resizable.Queue.resize, if_neg h1, if_pos hgt, hloop]
      simp only [Resizable.Inv, Resizable.Queue.len, Unlimited.Queue.len]
      omega

/-- The trace invariant holds after any list of resizable-queue
operations. -/
lemma Resizable.Inv_foldl_resizable (ops : List (Resizable.Op α)) :
    ∀ tr : Resizable.Trace α, Resizable.Inv tr →
      Resizable.Inv (List.foldl Resizable.runOp tr ops) := by
  induction ops with
  | nil =>
    intro tr h
    simpa using h
  | cons op rest ih =>
    intro tr h
    simp only [List.foldl_cons]
    exact ih _ (Resizable.Inv_runOp_resizable tr op h)

/-- C6 (amended).  After any sequence of completed operations on a bounded
queue constructed with `new c`, with no operation in progress: for the
limited queue, len plus successful pops equals successful pushes, the
availability counter equals len, and push permits plus len equal the
capacity; for the resizable queue the same holds with the current capacity
and with the items dequeued and discarded by shrinking resizes counted next
to the pops — those drained items do not release push permits. -/
theorem C6_quiesced_slot_conservation :
    (∀ (α : Type) (c : Nat) (ops : List (Limited.Op α)),
        (Limited.runOps c ops).q.len + (Limited.runOps c ops).pops =
          (Limited.runOps c ops).pushes ∧
        (Limited.runOps c ops).q.available = ((Limited.runOps c ops).q.len : Int) ∧
        (Limited.runOps c ops).q.pushSemaphore + (Limited.runOps c ops).q.len = c) ∧
    (∀ (α : Type) (c : Nat) (ops : List (Resizable.Op α)),
        (Resizable.runOps c ops).q.len + (Resizable.runOps c ops).pops +
            (Resizable.runOps c ops).drained =
          (Resizable.runOps c ops).pushes ∧
        (Resizable.runOps c ops).q.queue.available =
          ((Resizable.runOps c ops).q.len : Int) ∧
        (Resizable.runOps c ops).q.pushSemaphore + (Resizable.runOps c ops).q.len =
          (Resizable.runOps c ops).q.capacity) := by
  constructor
  · intro α c ops
    have h : Limited.Inv c (Limited.runOps c ops) := Limited.Inv_foldl_limited c ops
      ⟨Limited.Queue.new α c, 0, 0⟩
      ⟨rfl, rfl, by simp [Limited.Queue.new, Limited.Queue.len], by simp [Limited.Queue.new,
        Limited.Queue.len], by simp [Limited.Queue.new, Limited.Queue.len]⟩
    obtain ⟨hc, hpop, hpush, hav, hcount⟩ := h
    exact ⟨by omega, hav, by omega⟩
  · intro α c ops
    have h : Resizable.Inv (Resizable.runOps c ops) := Resizable.Inv_foldl_resizable ops
      ⟨Resizable.Queue.new α c, 0, 0, 0⟩
      ⟨rfl, rfl, by simp [Resizable.Queue.new, Resizable.Queue.len, Unlimited.Queue.new,
        Unlimited.Queue.len], by simp [Resizable.Queue.new, Resizable.Queue.len,
        Unlimited.Queue.new, Unlimited.Queue.len]⟩
    obtain ⟨hsem, hav, hslot, hcount⟩ := h
    exact ⟨by omega, hav, hslot⟩

/-- C6 counterexample to the claim as stated.  From `new 2`, two pushes and
a shrinking resize to capacity 1 complete; 2 pushes and 0 pops succeeded,
but len is 1, not `2 - 0`: the resize drained one item, so len does not
equal successful pushes minus successful pops. -/
theorem C6_drain_breaks_len_accounting :
    (Resizable.runOps 2 [Resizable.Op.push (7 : Nat), Resizable.Op.push 8,
        Resizable.Op.resize 1]).pushes = 2 ∧
    (Resizable.runOps 2 [Resizable.Op.push (7 : Nat), Resizable.Op.push 8,
        Resizable.Op.resize 1]).pops = 0 ∧
    (Resizable.runOps 2 [Resizable.Op.push (7 : Nat), Resizable.Op.push 8,
        Resizable.Op.resize 1]).q.len = 1 ∧
    (Resizable.runOps 2 [Resizable.Op.push (7 : Nat), Resizable.Op.push 8,
        Resizable.Op.resize 1]).q.len ≠
      (Resizable.runOps 2 [Resizable.Op.push (7 : Nat), Resizable.Op.push 8,
          Resizable.Op.resize 1]).pushes -
        (Resizable.runOps 2 [Resizable.Op.push (7 : Nat), Resizable.Op.push 8,
            Resizable.Op.resize 1]).pops := by
  refine ⟨rfl, rfl, rfl, by decide⟩

end Deadqueue
